import Mathlib

/-!
# Chat client (`frontend/src/App.jsx`): view state and socket event handlers

The `App` component owns five pieces of React state (`socket`, `messages`,
`inputMessage`, `isTyping`, `connectionStatus`) and reacts to socket events and
user input.  Every handler runs to completion on a single thread, so the
component is embedded as a state record and one function per handler.  Calls
made on the socket instance (`emit`, `disconnect`) are recorded in a log, and
the part of the socket.io-client object that `disconnect()` reads and writes
is the record `Transport`.

Conventions of the embedding:
* JavaScript strings are Lean `String`s; `String.prototype.trim` is `trim`.
* `Date.now()` readings are natural numbers (milliseconds); the locale-rendered
  time string of `new Date().toLocaleTimeString(...)` is supplied alongside.
-/

namespace App

/-! ## Strings: `String.prototype.trim` -/

/-- ECMAScript `WhiteSpace` and `LineTerminator` code points, the characters
that `String.prototype.trim` strips from both ends. -/
def isWhiteSpace (c : Char) : Bool :=
  let n := c.toNat
  n == 0x09 || n == 0x0A || n == 0x0B || n == 0x0C || n == 0x0D || n == 0x20 ||
  n == 0xA0 || n == 0x1680 || (0x2000 ≤ n && n ≤ 0x200A) || n == 0x2028 ||
  n == 0x2029 || n == 0x202F || n == 0x205F || n == 0x3000 || n == 0xFEFF

/-- Strip leading white space (`trimStart`) from a character list. -/
def trimStart (cs : List Char) : List Char :=
  cs.dropWhile isWhiteSpace

/-- Strip trailing white space (`trimEnd`) from a character list. -/
def trimEnd (cs : List Char) : List Char :=
  (cs.reverse.dropWhile isWhiteSpace).reverse

/-- The method `inputMessage.trim()`. -/
def trim (s : String) : String :=
  ⟨trimEnd (trimStart s.data)⟩

/-! ## Data model -/

/-- Options object passed to `io(url, opts)`. -/
structure ManagerOptions where
  reconnectionAttempts : Nat
  reconnectionDelay : Nat
deriving DecidableEq

/-- The object returned by `io(url, opts)`. -/
structure SocketInstance where
  uri : String
  opts : ManagerOptions
deriving DecidableEq

/-- The call `io(uri, opts)` of `socket.io-client`. -/
def io (uri : String) (opts : ManagerOptions) : SocketInstance :=
  ⟨uri, opts⟩

/-- A method call made on the socket instance. -/
inductive SocketCall where
  | emit (event : String) (payload : String)
  | disconnect
deriving DecidableEq

/-- An entry of `messages`: the object literal `{ id, text, timestamp, sender }`. -/
structure Message where
  id : Nat
  text : String
  timestamp : String
  sender : String
deriving DecidableEq

/-- The state of the component: the five `useState` cells (lines 6-10) and the
log of calls made so far on the socket instance. -/
structure AppState where
  socket : Option SocketInstance
  messages : List Message
  inputMessage : String
  isTyping : Bool
  connectionStatus : String
  calls : List SocketCall
deriving DecidableEq

/-- The initial values given to `useState` (lines 6-10); nothing has been
called on any socket yet. -/
def initial : AppState :=
  { socket := none
    messages := []
    inputMessage := ""
    isTyping := false
    connectionStatus := "connecting"
    calls := [] }

/-! ## Handlers registered by the socket effect (lines 35-76) -/

/-- Handler of `"connect"` (lines 43-45). -/
def onConnect (s : AppState) : AppState :=
  { s with connectionStatus := "connected" }

/-- Handler of `"disconnect"` (lines 47-49). -/
def onDisconnect (s : AppState) : AppState :=
  { s with connectionStatus := "disconnected" }

/-- Handler of `"connect_error"` (lines 51-53). -/
def onConnectError (s : AppState) : AppState :=
  { s with connectionStatus := "error" }

/-- Handler of `"ai-message-response"` (lines 55-67): `response` is the field
`response.response` of the payload, `now` the reading of `Date.now()`,
`time` the rendered `toLocaleTimeString`. -/
def onAiMessageResponse (s : AppState) (response : String) (now : Nat)
    (time : String) : AppState :=
  let s1 := { s with isTyping := false }
  let newMessage : Message :=
    { id := now + 1, text := response, timestamp := time, sender := "assistant" }
  { s1 with messages := s1.messages ++ [newMessage] }

/-- Handler of `"typing-indicator"` (lines 69-71). -/
def onTypingIndicator (s : AppState) : AppState :=
  { s with isTyping := true }

/-- The part of the socket.io-client object behind `socketInstance` that its
method `disconnect()` reads and writes: `connected` is `socket.connected`,
`active` is `socket.active` (the socket is subscribed to its manager, which
holds the connection for it), `disconnectPackets` counts the DISCONNECT
packets sent to the server and `releases` counts how many times the manager
was closed on behalf of this socket. -/
structure Transport where
  connected : Bool
  active : Bool
  disconnectPackets : Nat
  releases : Nat
deriving DecidableEq

/-- The socket as `io(...)` returns it: subscribed to a manager that is
opening the connection, not yet connected, nothing sent or released. -/
def opened : Transport :=
  { connected := false, active := true, disconnectPackets := 0, releases := 0 }

/-- The library method `socketInstance.disconnect()` of socket.io-client, as
seen by the component.  A connected socket sends a DISCONNECT packet; an
active socket is unsubscribed from its manager, which is then closed (the only
socket of the manager is this one); a connected socket becomes not connected
and its `"disconnect"` listeners run synchronously, here the handler of lines
47-49.  On a socket that is neither connected nor active nothing of this
happens. -/
def disconnect (s : AppState) (t : Transport) : AppState × Transport :=
  let s1 := { s with calls := s.calls ++ [SocketCall.disconnect] }
  let t1 := if t.connected then { t with disconnectPackets := t.disconnectPackets + 1 } else t
  let t2 := if t1.active then { t1 with active := false, releases := t1.releases + 1 } else t1
  if t2.connected then (onDisconnect s1, { t2 with connected := false }) else (s1, t2)

/-- The cleanup closure returned by the socket effect (lines 73-75): it calls
`disconnect()` on the instance captured at setup. -/
def cleanup ( _socketInstance : SocketInstance) (w : AppState × Transport) :
    AppState × Transport :=
  disconnect w.1 w.2

/-- The socket effect body (lines 35-76): creates the instance, stores it with
`setSocket`, and returns the cleanup closure. -/
def socketEffect (s : AppState) :
    (AppState × Transport) × (AppState × Transport → AppState × Transport) :=
  let socketInstance := io "http://localhost:3000" ⟨5, 1000⟩
  (({ s with socket := some socketInstance }, opened), cleanup socketInstance)

/-! ## User-input handlers -/

/-- The textarea `onChange` (line 193): `setInputMessage(e.target.value)`. -/
def onChange (s : AppState) (value : String) : AppState :=
  { s with inputMessage := value }

/-- The function `handleSendMessage` (lines 78-95). -/
def handleSendMessage (s : AppState) (now : Nat) (time : String) : AppState :=
  if trim s.inputMessage = "" ∨ s.socket = none then s
  else
    let newMessage : Message :=
      { id := now, text := trim s.inputMessage, timestamp := time, sender := "user" }
    { s with
      messages := s.messages ++ [newMessage]
      calls := s.calls ++ [SocketCall.emit "ai-message" s.inputMessage]
      isTyping := true
      inputMessage := "" }

/-- The function `handleKeyPress` (lines 97-102). -/
def handleKeyPress (s : AppState) (key : String) (shiftKey : Bool) (now : Nat)
    (time : String) : AppState :=
  if key = "Enter" ∧ shiftKey = false then handleSendMessage s now time else s

/-! ## Event sequences -/

/-- One event delivered to the component by the runtime. -/
inductive Event where
  | connect
  | disconnect
  | connectError
  | aiMessageResponse (response : String) (now : Nat) (time : String)
  | typingIndicator
  | change (value : String)
  | send (now : Nat) (time : String)
  | keyDown (key : String) (shiftKey : Bool) (now : Nat) (time : String)
deriving DecidableEq

/-- Dispatch of one event to its handler. -/
def step (s : AppState) : Event → AppState
  | .connect => onConnect s
  | .disconnect => onDisconnect s
  | .connectError => onConnectError s
  | .aiMessageResponse r now time => onAiMessageResponse s r now time
  | .typingIndicator => onTypingIndicator s
  | .change v => onChange s v
  | .send now time => handleSendMessage s now time
  | .keyDown key shift now time => handleKeyPress s key shift now time

/-- Events are handled one at a time, in delivery order. -/
def run (s : AppState) (es : List Event) : AppState :=
  es.foldl step s

/-- The state once the socket effect has run on the initial render. -/
def mounted : AppState :=
  (socketEffect initial).1.1

/-- Whether `handleSendMessage` passes its guard (line 79) in state `s`. -/
def accepted (s : AppState) : Bool :=
  decide (trim s.inputMessage ≠ "" ∧ s.socket ≠ none)

/-- The events `connect`, `disconnect` and `connect_error`. -/
def isConnectionEvent : Event → Bool
  | .connect => true
  | .disconnect => true
  | .connectError => true
  | _ => false

/-- The event `ai-message-response`. -/
def isReply : Event → Bool
  | .aiMessageResponse _ _ _ => true
  | _ => false

/-- The sender and text of a transcript entry. -/
def view (m : Message) : String × String :=
  (m.sender, m.text)

/-- The transcript entry the specification attributes to an event handled in
state `s`: an accepted submission contributes the trimmed input under sender
`user`, an inbound reply contributes its response text under sender
`assistant`, and every other event contributes nothing. -/
def entryOf (s : AppState) : Event → List (String × String)
  | .send _ _ => if accepted s then [("user", trim s.inputMessage)] else []
  | .keyDown key shiftKey _ _ =>
      if key = "Enter" ∧ shiftKey = false ∧ accepted s = true
      then [("user", trim s.inputMessage)] else []
  | .aiMessageResponse r _ _ => [("assistant", r)]
  | _ => []

/-- The entries the specification expects from a sequence of events, in the
order the events are processed. -/
def entries (s : AppState) : List Event → List (String × String)
  | [] => []
  | e :: es => entryOf s e ++ entries (step s e) es

/-- The three values a connection event can store. -/
def settled (c : String) : Prop :=
  c = "connected" ∨ c = "disconnected" ∨ c = "error"

/-! ## Basic facts about the handlers -/

theorem run_cons (s : AppState) (e : Event) (es : List Event) :
    run s (e :: es) = run (step s e) es := rfl

theorem run_nil (s : AppState) : run s [] = s := rfl

theorem handleSendMessage_rejected (s : AppState) (now : Nat) (time : String)
    (h : trim s.inputMessage = "" ∨ s.socket = none) :
    handleSendMessage s now time = s := by
  unfold handleSendMessage
  rw [if_pos h]

theorem handleSendMessage_accepted (s : AppState) (now : Nat) (time : String)
    (h : ¬ (trim s.inputMessage = "" ∨ s.socket = none)) :
    handleSendMessage s now time =
      { s with
        messages := s.messages ++
          [{ id := now, text := trim s.inputMessage, timestamp := time, sender := "user" }]
        calls := s.calls ++ [SocketCall.emit "ai-message" s.inputMessage]
        isTyping := true
        inputMessage := "" } := by
  unfold handleSendMessage
  rw [if_neg h]

theorem accepted_iff (s : AppState) :
    accepted s = true ↔ ¬ (trim s.inputMessage = "" ∨ s.socket = none) := by
  unfold accepted
  rw [decide_eq_true_iff, not_or]

/-! ## Submitting a message -/

/-- C1: with a socket handle present and an input buffer whose trimmed text is
non-empty, `handleSendMessage` yields the old transcript followed by exactly
one new message, of sender `user` and text `trim` of the buffer, and leaves the
input buffer empty. -/
theorem handleSendMessage_appends_user_message (s : AppState) (sock : SocketInstance)
    (now : Nat) (time : String) (hsock : s.socket = some sock)
    (htrim : trim s.inputMessage ≠ "") :
    (∃ m : Message, (handleSendMessage s now time).messages = s.messages ++ [m] ∧
        m.sender = "user" ∧ m.text = trim s.inputMessage) ∧
      (handleSendMessage s now time).inputMessage = "" := by
  have hacc : ¬ (trim s.inputMessage = "" ∨ s.socket = none) := by
    rw [hsock]
    simp [htrim]
  rw [handleSendMessage_accepted s now time hacc]
  exact ⟨⟨_, rfl, rfl, rfl⟩, rfl⟩

theorem handleSendMessage_appends_user_message_witness :
    (onChange mounted "  hi \n").socket = some (io "http://localhost:3000" ⟨5, 1000⟩) ∧
    trim (onChange mounted "  hi \n").inputMessage ≠ "" ∧
    ((∃ m : Message,
        (handleSendMessage (onChange mounted "  hi \n") 7 "10:15").messages =
          (onChange mounted "  hi \n").messages ++ [m] ∧
        m.sender = "user" ∧ m.text = trim (onChange mounted "  hi \n").inputMessage) ∧
      (handleSendMessage (onChange mounted "  hi \n") 7 "10:15").inputMessage = "") :=
  ⟨rfl, by decide,
    handleSendMessage_appends_user_message (onChange mounted "  hi \n")
      (io "http://localhost:3000" ⟨5, 1000⟩) 7 "10:15" rfl (by decide)⟩

/-- C2: the buffers `""` and `"   "` trim to the empty string, and whenever the
trimmed input buffer is empty or the socket is `null`, `handleSendMessage`
returns the state unchanged: transcript, typing flag, input buffer, connection
status and the log of socket calls (so no `ai-message` is emitted). -/
theorem handleSendMessage_noop :
    (trim "" = "" ∧ trim "   " = "") ∧
    ∀ (s : AppState) (now : Nat) (time : String),
      trim s.inputMessage = "" ∨ s.socket = none →
        handleSendMessage s now time = s ∧
        (handleSendMessage s now time).messages = s.messages ∧
        (handleSendMessage s now time).isTyping = s.isTyping ∧
        (handleSendMessage s now time).inputMessage = s.inputMessage ∧
        (handleSendMessage s now time).connectionStatus = s.connectionStatus ∧
        (handleSendMessage s now time).calls = s.calls := by
  refine ⟨⟨by decide, by decide⟩, ?_⟩
  intro s now time h
  rw [handleSendMessage_rejected s now time h]
  exact ⟨rfl, rfl, rfl, rfl, rfl, rfl⟩

theorem handleSendMessage_noop_witness :
    (trim (onChange mounted "   ").inputMessage = "" ∨ (onChange mounted "   ").socket = none) ∧
    (trim (onChange initial "hello").inputMessage = "" ∨
      (onChange initial "hello").socket = none) ∧
    handleSendMessage (onChange mounted "   ") 3 "09:00" = onChange mounted "   " ∧
    handleSendMessage (onChange initial "hello") 3 "09:00" = onChange initial "hello" :=
  ⟨Or.inl (by decide), Or.inr rfl,
    (handleSendMessage_noop.2 (onChange mounted "   ") 3 "09:00" (Or.inl (by decide))).1,
    (handleSendMessage_noop.2 (onChange initial "hello") 3 "09:00" (Or.inr rfl)).1⟩

/-- C3, as stated, fails: with the buffer `" hi "` and a socket present the
submission is accepted, the stored message text is `"hi"`, and the payload of
the emitted `ai-message` is the untrimmed `" hi "`. -/
theorem emit_payload_is_not_trimmed :
    (handleSendMessage (onChange mounted " hi ") 7 "10:15").messages.map view =
        [("user", "hi")] ∧
    (handleSendMessage (onChange mounted " hi ") 7 "10:15").calls =
        [SocketCall.emit "ai-message" " hi "] ∧
    (handleSendMessage (onChange mounted " hi ") 7 "10:15").calls ≠
        [SocketCall.emit "ai-message" (trim " hi ")] := by
  decide

/-- C3, amended: an accepted submission makes exactly one socket call, the
emission of `ai-message` whose payload is the input buffer as typed
(untrimmed); the appended user message stores the trimmed buffer, so payload
and stored text agree exactly when the buffer has no leading or trailing
white space. -/
theorem handleSendMessage_emits_raw_input (s : AppState) (now : Nat) (time : String)
    (htrim : trim s.inputMessage ≠ "") (hsock : s.socket ≠ none) :
    (handleSendMessage s now time).calls =
        s.calls ++ [SocketCall.emit "ai-message" s.inputMessage] ∧
    (handleSendMessage s now time).messages =
        s.messages ++ [⟨now, trim s.inputMessage, time, "user"⟩] ∧
    ((handleSendMessage s now time).calls =
        s.calls ++ [SocketCall.emit "ai-message" (trim s.inputMessage)] ↔
      trim s.inputMessage = s.inputMessage) := by
  have hacc : ¬ (trim s.inputMessage = "" ∨ s.socket = none) := by
    simp [htrim, hsock]
  rw [handleSendMessage_accepted s now time hacc]
  refine ⟨rfl, rfl, ?_⟩
  constructor
  · intro h
    have h2 := List.append_cancel_left h
    simp only [List.cons.injEq, SocketCall.emit.injEq, and_true, true_and] at h2
    exact h2.symm
  · intro h
    show s.calls ++ [SocketCall.emit "ai-message" s.inputMessage] = _
    rw [h]

theorem handleSendMessage_emits_raw_input_witness :
    trim (onChange mounted " hi ").inputMessage ≠ "" ∧
    (onChange mounted " hi ").socket ≠ none ∧
    (handleSendMessage (onChange mounted " hi ") 7 "10:15").calls =
      (onChange mounted " hi ").calls ++
        [SocketCall.emit "ai-message" (onChange mounted " hi ").inputMessage] :=
  ⟨by decide, by decide,
    (handleSendMessage_emits_raw_input (onChange mounted " hi ") 7 "10:15"
      (by decide) (by decide)).1⟩

/-! ## Inbound replies -/

/-- C4: for every state and every response text `r`, the reply handler yields
the old transcript followed by exactly one new message, of sender `assistant`
and text `r`, and the typing flag is false afterwards whatever it was. -/
theorem onAiMessageResponse_appends_assistant_message (s : AppState) (r : String)
    (now : Nat) (time : String) :
    (∃ m : Message, (onAiMessageResponse s r now time).messages = s.messages ++ [m] ∧
        m.sender = "assistant" ∧ m.text = r) ∧
      (onAiMessageResponse s r now time).isTyping = false :=
  ⟨⟨_, rfl, rfl, rfl⟩, rfl⟩

/-! ## Transcript order -/

theorem step_view (s : AppState) (e : Event) :
    (step s e).messages.map view = s.messages.map view ++ entryOf s e := by
  cases e with
  | connect => simp [step, onConnect, entryOf]
  | disconnect => simp [step, onDisconnect, entryOf]
  | connectError => simp [step, onConnectError, entryOf]
  | aiMessageResponse r now time => simp [step, onAiMessageResponse, entryOf, view]
  | typingIndicator => simp [step, onTypingIndicator, entryOf]
  | change v => simp [step, onChange, entryOf]
  | send now time =>
    by_cases h : trim s.inputMessage = "" ∨ s.socket = none
    · have ha : accepted s = false := by
        rw [← Bool.not_eq_true, accepted_iff]
        exact not_not.mpr h
      simp [step, entryOf, handleSendMessage_rejected s now time h, ha]
    · have ha : accepted s = true := (accepted_iff s).mpr h
      simp [step, entryOf, handleSendMessage_accepted s now time h, ha, view]
  | keyDown key shiftKey now time =>
    by_cases hk : key = "Enter" ∧ shiftKey = false
    · by_cases h : trim s.inputMessage = "" ∨ s.socket = none
      · have ha : accepted s = false := by
          rw [← Bool.not_eq_true, accepted_iff]
          exact not_not.mpr h
        simp [step, entryOf, handleKeyPress, hk, handleSendMessage_rejected s now time h, ha]
      · have ha : accepted s = true := (accepted_iff s).mpr h
        simp [step, entryOf, handleKeyPress, hk, handleSendMessage_accepted s now time h, ha,
          view]
    · have hk2 : ¬ (key = "Enter" ∧ shiftKey = false ∧ accepted s = true) :=
        fun h3 => hk ⟨h3.1, h3.2.1⟩
      simp only [step, entryOf, handleKeyPress, if_neg hk, if_neg hk2, List.append_nil]

theorem step_messages_extends (s : AppState) (e : Event) :
    s.messages <+: (step s e).messages := by
  cases e with
  | connect => exact ⟨[], by simp [step, onConnect]⟩
  | disconnect => exact ⟨[], by simp [step, onDisconnect]⟩
  | connectError => exact ⟨[], by simp [step, onConnectError]⟩
  | aiMessageResponse r now time => exact ⟨_, rfl⟩
  | typingIndicator => exact ⟨[], by simp [step, onTypingIndicator]⟩
  | change v => exact ⟨[], by simp [step, onChange]⟩
  | send now time =>
    by_cases h : trim s.inputMessage = "" ∨ s.socket = none
    · exact ⟨[], by simp [step, handleSendMessage_rejected s now time h]⟩
    · exact ⟨_, by rw [step, handleSendMessage_accepted s now time h]⟩
  | keyDown key shiftKey now time =>
    by_cases hk : key = "Enter" ∧ shiftKey = false
    · by_cases h : trim s.inputMessage = "" ∨ s.socket = none
      · exact ⟨[], by simp [step, handleKeyPress, hk, handleSendMessage_rejected s now time h]⟩
      · exact ⟨_, by rw [step, handleKeyPress, if_pos hk,
          handleSendMessage_accepted s now time h]⟩
    · exact ⟨[], by simp only [step, handleKeyPress, if_neg hk, List.append_nil]⟩

theorem run_messages_extends (s : AppState) (es : List Event) :
    s.messages <+: (run s es).messages := by
  induction es generalizing s with
  | nil => exact ⟨[], by simp [run_nil]⟩
  | cons e es ih =>
    rw [run_cons]
    obtain ⟨t1, h1⟩ := step_messages_extends s e
    obtain ⟨t2, h2⟩ := ih (step s e)
    exact ⟨t1 ++ t2, by rw [← List.append_assoc, h1, h2]⟩

theorem run_view (s : AppState) (es : List Event) :
    (run s es).messages.map view = s.messages.map view ++ entries s es := by
  induction es generalizing s with
  | nil => simp [run_nil, entries]
  | cons e es ih =>
    rw [run_cons, ih (step s e), step_view s e, entries, List.append_assoc]

/-- C5: the transcript is append-only and in insertion order.  The transcript
before an event is a prefix of the transcript after it, and so for every
sequence of events; the senders and texts of the resulting transcript are
those of the old transcript followed by the accepted submissions and inbound
replies in the order they were processed; and from the mounted state (empty
transcript, socket present) submitting `a`, receiving `b`, submitting `c`
gives texts `a, b, c` with senders `user, assistant, user`, whatever the
clock readings. -/
theorem transcript_append_only_in_order :
    (∀ (s : AppState) (e : Event), s.messages <+: (step s e).messages) ∧
    (∀ (s : AppState) (es : List Event), s.messages <+: (run s es).messages) ∧
    (∀ (s : AppState) (es : List Event),
      (run s es).messages.map view = s.messages.map view ++ entries s es) ∧
    (∀ (n1 n2 n3 : Nat) (t1 t2 t3 : String),
      (run mounted [.change "a", .send n1 t1, .aiMessageResponse "b" n2 t2,
          .change "c", .send n3 t3]).messages.map view =
        [("user", "a"), ("assistant", "b"), ("user", "c")]) := by
  refine ⟨step_messages_extends, run_messages_extends, run_view, ?_⟩
  intro n1 n2 n3 t1 t2 t3
  rfl

/-! ## Connection status -/

theorem step_settled_of_connectionEvent (s : AppState) (e : Event)
    (h : isConnectionEvent e = true) : settled (step s e).connectionStatus := by
  cases e with
  | connect => exact Or.inl rfl
  | disconnect => exact Or.inr (Or.inl rfl)
  | connectError => exact Or.inr (Or.inr rfl)
  | aiMessageResponse r now time => simp [isConnectionEvent] at h
  | typingIndicator => simp [isConnectionEvent] at h
  | change v => simp [isConnectionEvent] at h
  | send now time => simp [isConnectionEvent] at h
  | keyDown key shiftKey now time => simp [isConnectionEvent] at h

theorem step_connectionStatus (s : AppState) (e : Event) :
    (step s e).connectionStatus = s.connectionStatus ∨ settled (step s e).connectionStatus := by
  cases e with
  | connect => exact Or.inr (Or.inl rfl)
  | disconnect => exact Or.inr (Or.inr (Or.inl rfl))
  | connectError => exact Or.inr (Or.inr (Or.inr rfl))
  | aiMessageResponse r now time => exact Or.inl rfl
  | typingIndicator => exact Or.inl rfl
  | change v => exact Or.inl rfl
  | send now time =>
    by_cases h : trim s.inputMessage = "" ∨ s.socket = none
    · exact Or.inl (by rw [step, handleSendMessage_rejected s now time h])
    · exact Or.inl (by rw [step, handleSendMessage_accepted s now time h])
  | keyDown key shiftKey now time =>
    by_cases hk : key = "Enter" ∧ shiftKey = false
    · by_cases h : trim s.inputMessage = "" ∨ s.socket = none
      · exact Or.inl (by rw [step, handleKeyPress, if_pos hk,
          handleSendMessage_rejected s now time h])
      · exact Or.inl (by rw [step, handleKeyPress, if_pos hk,
          handleSendMessage_accepted s now time h])
    · exact Or.inl (by rw [step, handleKeyPress, if_neg hk])

theorem run_settled_of_settled (s : AppState) (es : List Event)
    (h : settled s.connectionStatus) : settled (run s es).connectionStatus := by
  induction es generalizing s with
  | nil => exact h
  | cons e es ih =>
    rw [run_cons]
    apply ih
    rcases step_connectionStatus s e with h1 | h1
    · rw [h1]; exact h
    · exact h1

theorem run_settled (s : AppState) (es : List Event)
    (h : ∃ e ∈ es, isConnectionEvent e = true) : settled (run s es).connectionStatus := by
  induction es generalizing s with
  | nil =>
    obtain ⟨e, he, _⟩ := h
    simp at he
  | cons e es ih =>
    rw [run_cons]
    by_cases hc : isConnectionEvent e = true
    · exact run_settled_of_settled _ es (step_settled_of_connectionEvent s e hc)
    · apply ih
      obtain ⟨e2, he2, hc2⟩ := h
      rcases List.mem_cons.mp he2 with h3 | h3
      · rw [h3] at hc2
        exact absurd hc2 hc
      · exact ⟨e2, h3, hc2⟩

theorem settled_ne_connecting (c : String) (h : settled c) : c ≠ "connecting" := by
  rcases h with h | h | h <;> rw [h] <;> decide

/-- C6: the connection status is `connecting` in the initial state; `connect`
stores `connected`, `disconnect` stores `disconnected`, `connect_error` stores
`error`; and after any sequence of events that contains a connection event the
status is one of `connected`, `disconnected`, `error`, hence not `connecting`. -/
theorem connectionStatus_lifecycle :
    initial.connectionStatus = "connecting" ∧
    (∀ s : AppState, (step s .connect).connectionStatus = "connected") ∧
    (∀ s : AppState, (step s .disconnect).connectionStatus = "disconnected") ∧
    (∀ s : AppState, (step s .connectError).connectionStatus = "error") ∧
    (∀ (s : AppState) (es : List Event), (∃ e ∈ es, isConnectionEvent e = true) →
      ((run s es).connectionStatus = "connected" ∨
        (run s es).connectionStatus = "disconnected" ∨
        (run s es).connectionStatus = "error") ∧
      (run s es).connectionStatus ≠ "connecting") :=
  ⟨rfl, fun _ => rfl, fun _ => rfl, fun _ => rfl,
    fun s es h => ⟨run_settled s es h, settled_ne_connecting _ (run_settled s es h)⟩⟩

theorem connectionStatus_lifecycle_witness :
    (∃ e ∈ [Event.connect, Event.change "x", Event.send 5 "10:00", Event.disconnect,
        Event.typingIndicator], isConnectionEvent e = true) ∧
    (run initial [Event.connect, Event.change "x", Event.send 5 "10:00", Event.disconnect,
        Event.typingIndicator]).connectionStatus ≠ "connecting" :=
  ⟨⟨Event.connect, by simp, rfl⟩,
    (connectionStatus_lifecycle.2.2.2.2 initial
      [Event.connect, Event.change "x", Event.send 5 "10:00", Event.disconnect,
        Event.typingIndicator] ⟨Event.connect, by simp, rfl⟩).2⟩

/-! ## Typing flag -/

theorem step_isTyping (s : AppState) (e : Event) (hr : isReply e = false)
    (ht : s.isTyping = true) : (step s e).isTyping = true := by
  cases e with
  | connect => exact ht
  | disconnect => exact ht
  | connectError => exact ht
  | aiMessageResponse r now time => simp [isReply] at hr
  | typingIndicator => rfl
  | change v => exact ht
  | send now time =>
    by_cases h : trim s.inputMessage = "" ∨ s.socket = none
    · rw [step, handleSendMessage_rejected s now time h]; exact ht
    · rw [step, handleSendMessage_accepted s now time h]
  | keyDown key shiftKey now time =>
    by_cases hk : key = "Enter" ∧ shiftKey = false
    · by_cases h : trim s.inputMessage = "" ∨ s.socket = none
      · rw [step, handleKeyPress, if_pos hk, handleSendMessage_rejected s now time h]; exact ht
      · rw [step, handleKeyPress, if_pos hk, handleSendMessage_accepted s now time h]
    · rw [step, handleKeyPress, if_neg hk]; exact ht

theorem run_isTyping (s : AppState) (es : List Event) (hr : ∀ e ∈ es, isReply e = false)
    (ht : s.isTyping = true) : (run s es).isTyping = true := by
  induction es generalizing s with
  | nil => exact ht
  | cons e es ih =>
    rw [run_cons]
    exact ih (step s e) (fun e2 h2 => hr e2 (List.mem_cons_of_mem e h2))
      (step_isTyping s e (hr e (List.mem_cons_self e es)) ht)

/-- C7: after an accepted `handleSendMessage` the typing flag is true, and it
is still true after every following sequence of events that contains no
`ai-message-response` (submissions accepted or rejected, typing signals,
connection events, input edits); the next inbound reply makes it false. -/
theorem isTyping_until_reply (s : AppState) (now : Nat) (time : String) (es : List Event)
    (htrim : trim s.inputMessage ≠ "") (hsock : s.socket ≠ none)
    (hr : ∀ e ∈ es, isReply e = false) :
    (handleSendMessage s now time).isTyping = true ∧
    (run (handleSendMessage s now time) es).isTyping = true ∧
    ∀ (r : String) (n : Nat) (t : String),
      (run (handleSendMessage s now time) (es ++ [.aiMessageResponse r n t])).isTyping
        = false := by
  have hacc : ¬ (trim s.inputMessage = "" ∨ s.socket = none) := by
    simp [htrim, hsock]
  have h0 : (handleSendMessage s now time).isTyping = true := by
    rw [handleSendMessage_accepted s now time hacc]
  refine ⟨h0, run_isTyping _ es hr h0, ?_⟩
  intro r n t
  simp [run, List.foldl_append, step, onAiMessageResponse]

theorem isTyping_until_reply_witness :
    trim (onChange mounted "hello").inputMessage ≠ "" ∧
    (onChange mounted "hello").socket ≠ none ∧
    (∀ e ∈ [Event.disconnect, Event.send 8 "10:16", Event.change "more",
        Event.keyDown "Enter" false 9 "10:16", Event.connect], isReply e = false) ∧
    (run (handleSendMessage (onChange mounted "hello") 7 "10:15")
      [Event.disconnect, Event.send 8 "10:16", Event.change "more",
        Event.keyDown "Enter" false 9 "10:16", Event.connect]).isTyping = true :=
  ⟨by decide, by decide, by decide,
    (isTyping_until_reply (onChange mounted "hello") 7 "10:15"
      [Event.disconnect, Event.send 8 "10:16", Event.change "more",
        Event.keyDown "Enter" false 9 "10:16", Event.connect]
      (by decide) (by decide) (by decide)).2.1⟩

/-! ## Message ids -/

/-- C8 fails on the code: a reply created at clock reading 1000 gets id 1001,
and the submission accepted at the later reading 1001 gets id 1001 as well;
likewise two submissions accepted at the same reading 5 both get id 5.  The
ids of the transcript are then not pairwise distinct. -/
theorem message_ids_collide :
    (run mounted [.aiMessageResponse "b" 1000 "10:15", .change "a",
        .send 1001 "10:15"]).messages.map Message.id = [1001, 1001] ∧
    ¬ ((run mounted [.aiMessageResponse "b" 1000 "10:15", .change "a",
        .send 1001 "10:15"]).messages.map Message.id).Nodup ∧
    (run mounted [.change "a", .send 5 "10:15", .change "b",
        .send 5 "10:15"]).messages.map Message.id = [5, 5] := by
  decide

/-! ## Message texts -/

theorem step_mem (s : AppState) (e : Event) (m : Message) (h : m ∈ (step s e).messages) :
    m ∈ s.messages ∨ (m.sender = "user" ∧ m.text ≠ "") ∨
      ∃ r n t, e = Event.aiMessageResponse r n t ∧ m.sender = "assistant" ∧ m.text = r := by
  cases e with
  | connect => exact Or.inl h
  | disconnect => exact Or.inl h
  | connectError => exact Or.inl h
  | aiMessageResponse r now time =>
    simp only [step, onAiMessageResponse, List.mem_append, List.mem_singleton] at h
    rcases h with h | h
    · exact Or.inl h
    · exact Or.inr (Or.inr ⟨r, now, time, rfl, by rw [h], by rw [h]⟩)
  | typingIndicator => exact Or.inl h
  | change v => exact Or.inl h
  | send now time =>
    by_cases hg : trim s.inputMessage = "" ∨ s.socket = none
    · rw [step, handleSendMessage_rejected s now time hg] at h
      exact Or.inl h
    · rw [step, handleSendMessage_accepted s now time hg] at h
      simp only [List.mem_append, List.mem_singleton] at h
      rcases h with h | h
      · exact Or.inl h
      · exact Or.inr (Or.inl ⟨by rw [h], by rw [h]; exact fun h0 => hg (Or.inl h0)⟩)
  | keyDown key shiftKey now time =>
    by_cases hk : key = "Enter" ∧ shiftKey = false
    · by_cases hg : trim s.inputMessage = "" ∨ s.socket = none
      · rw [step, handleKeyPress, if_pos hk, handleSendMessage_rejected s now time hg] at h
        exact Or.inl h
      · rw [step, handleKeyPress, if_pos hk, handleSendMessage_accepted s now time hg] at h
        simp only [List.mem_append, List.mem_singleton] at h
        rcases h with h | h
        · exact Or.inl h
        · exact Or.inr (Or.inl ⟨by rw [h], by rw [h]; exact fun h0 => hg (Or.inl h0)⟩)
    · rw [step, handleKeyPress, if_neg hk] at h
      exact Or.inl h

theorem run_user_text_ne_empty (s : AppState) (es : List Event)
    (hs : ∀ m ∈ s.messages, m.sender = "user" → m.text ≠ "") :
    ∀ m ∈ (run s es).messages, m.sender = "user" → m.text ≠ "" := by
  induction es generalizing s with
  | nil => exact hs
  | cons e es ih =>
    rw [run_cons]
    apply ih
    intro m hm hu
    rcases step_mem s e m hm with h | h | ⟨r, n, t, _, h, _⟩
    · exact hs m h hu
    · exact h.2
    · rw [hu] at h
      exact absurd h (by decide)

theorem run_text_ne_empty (s : AppState) (es : List Event)
    (hs : ∀ m ∈ s.messages, m.text ≠ "")
    (hr : ∀ r n t, Event.aiMessageResponse r n t ∈ es → r ≠ "") :
    ∀ m ∈ (run s es).messages, m.text ≠ "" := by
  induction es generalizing s with
  | nil => exact hs
  | cons e es ih =>
    rw [run_cons]
    apply ih
    · intro m hm
      rcases step_mem s e m hm with h | h | ⟨r, n, t, he, _, h⟩
      · exact hs m h
      · exact h.2
      · rw [h]
        exact hr r n t (by rw [he]; exact List.mem_cons_self _ _)
    · intro r n t h
      exact hr r n t (List.mem_cons_of_mem e h)

/-- C9 fails as stated: from the mounted state (empty transcript) an inbound
reply whose response is the empty string appends a message whose text is the
empty string. -/
theorem empty_reply_gives_empty_text :
    (run mounted [.aiMessageResponse "" 1000 "10:15"]).messages =
      [⟨1001, "", "10:15", "assistant"⟩] ∧
    ∃ m ∈ (run mounted [.aiMessageResponse "" 1000 "10:15"]).messages, m.text = "" := by
  decide

/-- C9, amended: starting from any state with an empty transcript, with or
without a socket, after every sequence of events each message of sender `user`
has a non-empty text, and when every inbound response in the sequence is a
non-empty string, each message of the transcript has a non-empty text. -/
theorem transcript_text_ne_empty (s : AppState) (es : List Event) (hs : s.messages = []) :
    (∀ m ∈ (run s es).messages, m.sender = "user" → m.text ≠ "") ∧
    ((∀ r n t, Event.aiMessageResponse r n t ∈ es → r ≠ "") →
      ∀ m ∈ (run s es).messages, m.text ≠ "") :=
  ⟨run_user_text_ne_empty s es (fun m hm => by rw [hs] at hm; exact absurd hm (List.not_mem_nil m)),
    fun hr => run_text_ne_empty s es
      (fun m hm => by rw [hs] at hm; exact absurd hm (List.not_mem_nil m)) hr⟩

theorem transcript_text_ne_empty_witness :
    mounted.messages = [] ∧
    (run mounted [Event.change " a ", Event.send 5 "10:15",
        Event.aiMessageResponse "b" 6 "10:15"]).messages.map view =
      [("user", "a"), ("assistant", "b")] ∧
    (∀ r n t, Event.aiMessageResponse r n t ∈
        [Event.change " a ", Event.send 5 "10:15", Event.aiMessageResponse "b" 6 "10:15"] →
      r ≠ "") ∧
    (∀ m ∈ (run mounted
        [Event.change " a ", Event.send 5 "10:15",
          Event.aiMessageResponse "b" 6 "10:15"]).messages,
      m.sender = "user" → m.text ≠ "") ∧
    ∀ m ∈ (run mounted
        [Event.change " a ", Event.send 5 "10:15",
          Event.aiMessageResponse "b" 6 "10:15"]).messages, m.text ≠ "" :=
  ⟨rfl, by decide,
    by
      intro r n t h
      simp at h
      rw [h.1]
      decide,
    (transcript_text_ne_empty mounted
      [Event.change " a ", Event.send 5 "10:15", Event.aiMessageResponse "b" 6 "10:15"]
      rfl).1,
    (transcript_text_ne_empty mounted
      [Event.change " a ", Event.send 5 "10:15", Event.aiMessageResponse "b" 6 "10:15"]
      rfl).2
      (by
        intro r n t h
        simp at h
        rw [h.1]
        decide)⟩

/-! ## Teardown -/

theorem disconnect_transport (s : AppState) (t : Transport) :
    (disconnect s t).2 =
      { connected := false
        active := false
        disconnectPackets := t.disconnectPackets + (if t.connected then 1 else 0)
        releases := t.releases + (if t.active then 1 else 0) } := by
  obtain ⟨c, a, p, r⟩ := t
  cases c <;> cases a <;> rfl

theorem disconnect_state (s : AppState) (t : Transport) :
    (disconnect s t).1 =
      { s with
        calls := s.calls ++ [SocketCall.disconnect]
        connectionStatus := if t.connected then "disconnected" else s.connectionStatus } := by
  obtain ⟨c, a, p, r⟩ := t
  cases c <;> cases a <;> rfl

theorem disconnect_released (s : AppState) (t : Transport) (hc : t.connected = false)
    (ha : t.active = false) :
    disconnect s t = ({ s with calls := s.calls ++ [SocketCall.disconnect] }, t) := by
  obtain ⟨c, a, p, r⟩ := t
  simp only at hc ha
  subst hc ha
  rfl

theorem cleanup_iterate (sock : SocketInstance) (s : AppState) (t : Transport) (k : Nat) :
    (cleanup sock)^[k + 1] (s, t) =
      ({ (disconnect s t).1 with
          calls := s.calls ++ List.replicate (k + 1) SocketCall.disconnect },
        (disconnect s t).2) := by
  induction k with
  | zero =>
    rw [Function.iterate_one, cleanup]
    refine Prod.ext ?_ rfl
    show (disconnect s t).1 = _
    rw [disconnect_state]
    rfl
  | succ k ih =>
    rw [Function.iterate_succ_apply', ih, cleanup]
    rw [disconnect_released _ _ (by rw [disconnect_transport]) (by rw [disconnect_transport])]
    congr 2
    show s.calls ++ List.replicate (k + 1) SocketCall.disconnect ++ [SocketCall.disconnect] = _
    rw [List.append_assoc, ← List.replicate_succ']

/-- C10: teardown is idempotent.  For a socket that still holds its connection
(`active`), in any component state and connected or not, invoking the cleanup
function returned by the socket effect `n` times, `n` at least one, releases
the connection exactly once in total, sends the DISCONNECT packet at most once
(once when connected), and leaves the socket and every state cell exactly as
one invocation does; each invocation does call `disconnect()`, and only the
first finds anything to release. -/
theorem cleanup_releases_once (s0 s : AppState) (t : Transport) (n : Nat) (hn : 1 ≤ n)
    (ha : t.active = true) :
    (((socketEffect s0).2)^[n] (s, t)).2.releases = t.releases + 1 ∧
    (((socketEffect s0).2)^[n] (s, t)).2.disconnectPackets =
      t.disconnectPackets + (if t.connected then 1 else 0) ∧
    (((socketEffect s0).2)^[n] (s, t)).2 = ((socketEffect s0).2 (s, t)).2 ∧
    { (((socketEffect s0).2)^[n] (s, t)).1 with calls := [] } =
      { ((socketEffect s0).2 (s, t)).1 with calls := [] } ∧
    (((socketEffect s0).2)^[n] (s, t)).1.calls =
      s.calls ++ List.replicate n SocketCall.disconnect := by
  obtain ⟨k, rfl⟩ : ∃ k, n = k + 1 := ⟨n - 1, by omega⟩
  have h : ((socketEffect s0).2)^[k + 1] (s, t) = _ :=
    cleanup_iterate (io "http://localhost:3000" ⟨5, 1000⟩) s t k
  rw [h]
  refine ⟨?_, ?_, rfl, rfl, rfl⟩
  · show (disconnect s t).2.releases = _
    rw [disconnect_transport, if_pos ha]
  · show (disconnect s t).2.disconnectPackets = _
    rw [disconnect_transport]

theorem cleanup_releases_once_witness :
    1 ≤ 3 ∧ (Transport.mk true true 0 0).active = true ∧
    (((socketEffect initial).2)^[3]
      (run mounted [Event.connect], Transport.mk true true 0 0)).2 =
        Transport.mk false false 1 1 ∧
    (((socketEffect initial).2)^[3]
      (run mounted [Event.connect], Transport.mk true true 0 0)).1.connectionStatus =
        "disconnected" ∧
    (((socketEffect initial).2)^[3]
      (run mounted [Event.connect], Transport.mk true true 0 0)).2.releases = 0 + 1 :=
  ⟨by decide, rfl, by decide, by decide,
    (cleanup_releases_once initial (run mounted [Event.connect]) (Transport.mk true true 0 0) 3
      (by decide) rfl).1⟩

end App
